import Mathlib

/-!
Shallow embedding of the repository's two components:

* the cookie codec (`createCookieFactory`, `encodeCookieValue`,
  `decodeCookieValue`, `encodeData`, `decodeData`), and
* the API-gateway adapter (`createRemixRequest`, `createRemixHeaders`,
  `sendRemixResponse`).

JavaScript builtins and external collaborators (`JSON.stringify`/`JSON.parse`,
`btoa`/`atob`, the injected `sign`/`unsign` pair, the `cookie` npm package's
header `parse`/`serialize`, `Buffer` base64 codecs, the WHATWG `URL`
resolver and the fetch `Headers` text decoder) are modelled as abstract
function parameters, bundled into records; theorems assume only the
round-trip laws the spec itself states for them.
-/

set_option autoImplicit false

/-- A JavaScript value as far as the cookie codec can observe it: the codec
compares values against the empty string, returns `null` and the empty
object `{}`, and otherwise treats values opaquely through `JSON`. -/
inductive JsValue where
  | null
  | bool (b : Bool)
  | num (n : Int)
  | str (s : String)
  | arr (elems : List JsValue)
  | obj (fields : List (String × JsValue))
deriving Inhabited

/-- The JavaScript primitives the cookie codec delegates to: `JSON`,
`btoa`/`atob` (an `Option` result models a thrown exception) and the
injected `sign`/`unsign` pair (`none` models the literal `false` that
`unsign` returns on verification failure). -/
structure CookiePrims where
  stringify : JsValue → String
  jsonParse : String → Option JsValue
  btoa : String → String
  atob : String → Option String
  sign : String → String → String
  unsign : String → String → Option String

/-- `encodeData(value) = btoa(JSON.stringify(value))`. -/
def encodeData (P : CookiePrims) (value : JsValue) : String :=
  P.btoa (P.stringify value)

/-- `decodeData`: `try { return JSON.parse(atob(value)) } catch { return {} }`. -/
def decodeData (P : CookiePrims) (value : String) : JsValue :=
  match (P.atob value).bind P.jsonParse with
  | some v => v
  | none => .obj []

/-- `encodeCookieValue`: encode, then sign with the first secret when the
secrets list is non-empty. -/
def encodeCookieValue (P : CookiePrims) (value : JsValue) (secrets : List String) : String :=
  match secrets with
  | [] => encodeData P value
  | secret0 :: _ => P.sign (encodeData P value) secret0

/-- The `for (let secret of secrets)` loop of `decodeCookieValue`: return the
decode of the first successful unsign, `null` when every secret fails. -/
def decodeCookieLoop (P : CookiePrims) (value : String) : List String → JsValue
  | [] => .null
  | secret :: rest =>
    match P.unsign value secret with
    | some unsignedValue => decodeData P unsignedValue
    | none => decodeCookieLoop P value rest

/-- `decodeCookieValue`: with secrets configured, try each secret in order;
without secrets, decode directly. -/
def decodeCookieValue (P : CookiePrims) (value : String) (secrets : List String) : JsValue :=
  if secrets.length > 0 then decodeCookieLoop P value secrets
  else decodeData P value

/-- The external `cookie` npm package, as the codec uses it:
`serialize(name, value, opts)` produces a `Set-Cookie` header string and
`parse(header, opts)` produces a name-to-raw-value mapping (modelled as an
association list whose first binding wins, like a JavaScript object). The
serialize/parse options are forwarded verbatim by the codec and do not
affect the claims, so they are not modelled. -/
structure CookieLib where
  serializeHeader : String → String → String
  parseHeader : String → List (String × String)

/-- `value === ""`: the JavaScript strict comparison of the cookie value
against the empty string used by `serialize`. -/
def isEmptyStr : JsValue → Bool
  | .str s => s == ""
  | _ => false

/-- The value placed in the header by `serialize`:
`value === "" ? "" : await encodeCookieValue(sign, value, secrets)`. -/
def serializeValue (P : CookiePrims) (secrets : List String) (value : JsValue) : String :=
  if isEmptyStr value then "" else encodeCookieValue P value secrets

/-- A cookie handle: the object returned by `createCookieFactory`'s inner
function (the `expires` getter needs wall-clock time and is not modelled;
no claim mentions it). -/
structure Cookie where
  name : String
  isSigned : Bool
  parse : Option String → JsValue
  serialize : JsValue → String

/-- `createCookieFactory({sign, unsign})(name, cookieOptions)`: builds the
cookie handle. `parse` returns `null` for a falsy header, looks the name up
in the parsed header, short-circuits the raw empty string, and otherwise
decodes; `serialize` short-circuits the empty string and otherwise
encodes. -/
def createCookieFactory (P : CookiePrims) (L : CookieLib)
    (name : String) (secrets : List String) : Cookie where
  name := name
  isSigned := secrets.length > 0
  parse := fun cookieHeader =>
    match cookieHeader with
    | none => .null
    | some h =>
      if h = "" then .null
      else
        match (L.parseHeader h).lookup name with
        | none => .null
        | some raw => if raw = "" then .str "" else decodeCookieValue P raw secrets
  serialize := fun value => L.serializeHeader name (serializeValue P secrets value)

/-! ## Gateway adapter -/

/-- The Node builtins the adapter delegates to: `Buffer` base64 encoding of a
byte body and base64 decoding of an event body to text, the body `text()`
decoder, and the WHATWG `URL` constructor `new URL(input, base)` (returning
`url.href`). -/
structure AdapterPrims where
  b64encodeBytes : List Nat → String
  b64decodeBytes : String → List Nat
  b64decodeToString : String → String
  textDecode : List Nat → String
  urlResolve : String → String → String

/-- The inbound API-gateway event, restricted to the fields the adapter
reads. Headers are a JavaScript object whose values may be `undefined`;
`method` stands for `requestContext.http.method`. -/
structure APIGatewayProxyEventV2 where
  rawPath : String
  rawQueryString : String
  headers : List (String × Option String)
  cookies : Option (List String)
  body : Option String
  isBase64Encoded : Bool
  method : String

/-- The generic request handed to the framework, restricted to the fields
the adapter sets (the abort controller carries no data). -/
structure NodeRequest where
  url : String
  method : String
  headers : List (String × String)
  body : Option String

/-- The generic response produced by the framework: status, the
`headers.raw()` view (each name with its list of values, as fetch `Headers`
exposes it), and the body's raw bytes. -/
structure NodeResponse where
  status : Nat
  headersRaw : List (String × List String)
  bodyBytes : List Nat

/-- The structured gateway result. -/
structure APIGatewayProxyStructuredResultV2 where
  statusCode : Nat
  headers : List (String × String)
  cookies : List String
  body : String
  isBase64Encoded : Bool

/-- Property access `headers[name]` on the event's header object
(`undefined` both for an absent key and for a key bound to `undefined`). -/
def getEventHeader (headers : List (String × Option String)) (name : String) : Option String :=
  match headers.lookup name with
  | some v => v
  | none => none

/-- JavaScript truthiness of a `string | undefined` value. -/
def jsTruthy : Option String → Bool
  | some s => ! (s == "")
  | none => false

/-- The JavaScript `a || b` on `string | undefined` values. -/
def jsOr (a b : Option String) : Option String :=
  if jsTruthy a then a else b

/-- Template-literal coercion of a `string | undefined` value. -/
def jsTemplateStr : Option String → String
  | some s => s
  | none => "undefined"

/-- `event.headers["x-forwarded-host"] || event.headers.host`, as it is
interpolated into the base URL string. -/
def eventHost (headers : List (String × Option String)) : String :=
  jsTemplateStr (jsOr (getEventHeader headers "x-forwarded-host") (getEventHeader headers "host"))

/-- `createRemixHeaders`: copy every header entry with a truthy value, then,
when the event has a `cookies` array (even an empty one), append a single
`Cookie` header joining them with `"; "`. The multi-valued `Headers` object
is modelled as the list of appended (name, value) entries. -/
def createRemixHeaders (requestHeaders : List (String × Option String))
    (requestCookies : Option (List String)) : List (String × String) :=
  (requestHeaders.filterMap fun kv =>
    match kv.2 with
    | some v => if v = "" then none else some (kv.1, v)
    | none => none)
  ++ match requestCookies with
     | some cs => [("Cookie", String.intercalate "; " cs)]
     | none => []

/-- `createRemixRequest`: build the URL from the host header (forwarded host
preferred) and `rawPath` plus the raw query string, and decode the body from
base64 when the event says so. -/
def createRemixRequest (P : AdapterPrims) (event : APIGatewayProxyEventV2) : NodeRequest where
  url :=
    let host := eventHost event.headers
    let search := if event.rawQueryString.length ≠ 0 then "?" ++ event.rawQueryString else ""
    P.urlResolve (event.rawPath ++ search) ("https://" ++ host)
  method := event.method
  headers := createRemixHeaders event.headers event.cookies
  body :=
    match event.body, event.isBase64Encoded with
    | some b, true => if b = "" then some b else some (P.b64decodeToString b)
    | b, _ => b

/-- JavaScript `String.prototype.toLowerCase` on a single ASCII character,
as applied to header names. -/
def charToLower (c : Char) : Char :=
  if 'A' ≤ c ∧ c ≤ 'Z' then Char.ofNat (c.toNat + 32) else c

/-- JavaScript `String.prototype.toLowerCase`, as applied to header names
(characterwise ASCII lowering). -/
def strToLower (s : String) : String := ⟨s.data.map charToLower⟩

/-- Modelled from the spec: the binary content-type allow-list (the
`binaryTypes` module imported by the adapter is not among the sources). The
spec describes it as a fixed set of MIME type strings covering images,
audio, video, fonts, octet-stream, PDF, archive formats and wasm, reproduced
as external configuration data. -/
def binaryTypes : List String :=
  ["application/octet-stream", "application/pdf", "application/zip",
   "application/gzip", "application/wasm",
   "image/png", "image/jpeg", "image/gif", "image/webp", "image/avif",
   "audio/mpeg", "audio/ogg", "audio/wav",
   "video/mp4", "video/webm", "video/ogg",
   "font/woff", "font/woff2", "font/ttf", "font/otf"]

/-- Modelled from the spec: `isBinaryType(contentType)` returns false for an
absent content type and otherwise matches the content type by exact string
equality against the fixed allow-list. -/
def isBinaryType : Option String → Bool
  | none => false
  | some contentType => binaryTypes.contains contentType

/-- The `Set-Cookie` collection loop of `sendRemixResponse`: walk the
`raw()` entries and push every value whose key lowercases to
`"set-cookie"`. -/
def collectCookies : List (String × List String) → List String
  | [] => []
  | (key, values) :: rest =>
    if strToLower key = "set-cookie" then values ++ collectCookies rest
    else collectCookies rest

/-- The number of `Set-Cookie` values carried by a `raw()` header view. -/
def setCookieCount (raw : List (String × List String)) : Nat :=
  ((raw.filter fun kv => strToLower kv.1 == "set-cookie").map fun kv => kv.2.length).sum

/-- fetch `Headers.delete`: drop every entry whose name matches
case-insensitively. -/
def headersDelete (name : String) (raw : List (String × List String)) :
    List (String × List String) :=
  raw.filter fun kv => ! (strToLower kv.1 == strToLower name)

/-- fetch `Headers.set`: replace the values of a matching entry in place, or
append a fresh entry. -/
def headersSet (name value : String) (raw : List (String × List String)) :
    List (String × List String) :=
  if raw.any fun kv => strToLower kv.1 == strToLower name then
    raw.map fun kv => if strToLower kv.1 == strToLower name then (kv.1, [value]) else kv
  else raw ++ [(name, [value])]

/-- fetch `Headers.get`: the first matching entry's values joined with
`", "`, or `null`. -/
def headersGet (name : String) (raw : List (String × List String)) : Option String :=
  match raw.find? fun kv => strToLower kv.1 == strToLower name with
  | some kv => some (String.intercalate ", " kv.2)
  | none => none

/-- fetch `Headers` iteration as `Object.fromEntries` consumes it: each
entry under its lowercased name with its values joined by `", "`. -/
def headersToEntries (raw : List (String × List String)) : List (String × String) :=
  raw.map fun kv => (strToLower kv.1, String.intercalate ", " kv.2)

/-- `sendRemixResponse`: extract `Set-Cookie` values into the `cookies`
array (deleting the header when any were found), force `Connection: close`
when the request was aborted, and base64-encode the body exactly when the
content type is binary. -/
def sendRemixResponse (P : AdapterPrims) (nodeResponse : NodeResponse) (aborted : Bool) :
    APIGatewayProxyStructuredResultV2 :=
  let cookies := collectCookies nodeResponse.headersRaw
  let raw1 := if cookies.length > 0 then headersDelete "Set-Cookie" nodeResponse.headersRaw
              else nodeResponse.headersRaw
  let raw2 := if aborted then headersSet "Connection" "close" raw1 else raw1
  let contentType := headersGet "Content-Type" raw2
  let isBinary := isBinaryType contentType
  { statusCode := nodeResponse.status
    headers := headersToEntries raw2
    cookies := cookies
    body := if isBinary then P.b64encodeBytes nodeResponse.bodyBytes
            else P.textDecode nodeResponse.bodyBytes
    isBase64Encoded := isBinary }

/-! ## Concrete instances of the abstract primitives, used to evaluate the
theorems on closed inputs. They satisfy the round-trip laws the spec states
for the real collaborators. -/

/-- A simple injective stand-in for `JSON.stringify` on strings. -/
def testStringify : JsValue → String
  | .str s => ⟨'s' :: ':' :: s.data⟩
  | _ => "x"

/-- Inverse of `testStringify` on its string range; fails elsewhere. -/
def testJsonParse (s : String) : Option JsValue :=
  match s.data with
  | 's' :: ':' :: rest => some (.str ⟨rest⟩)
  | _ => none

/-- A stand-in for `btoa`. -/
def testBtoa (s : String) : String := ⟨'b' :: ':' :: s.data⟩

/-- Inverse of `testBtoa` on its range; fails elsewhere. -/
def testAtob (s : String) : Option String :=
  match s.data with
  | 'b' :: ':' :: rest => some ⟨rest⟩
  | _ => none

/-- A stand-in for the injected `sign`: append a dot and the secret. -/
def testSign (data secret : String) : String := data ++ "." ++ secret

/-- Inverse of `testSign`: verify the dot-secret suffix, else fail. -/
def testUnsign (value secret : String) : Option String :=
  let rsuffix := ('.' :: secret.data).reverse
  if rsuffix.isPrefixOf value.data.reverse then
    some ⟨(value.data.reverse.drop rsuffix.length).reverse⟩
  else none

/-- Bundle of the concrete cookie primitives. -/
def testPrims : CookiePrims :=
  ⟨testStringify, testJsonParse, testBtoa, testAtob, testSign, testUnsign⟩

/-- A simple `cookie.serialize`: `name=value; Path=/`. -/
def testSerializeHeader (name value : String) : String :=
  name ++ "=" ++ value ++ "; Path=/"

/-- Split a character list at every occurrence of a separator character. -/
def splitOnChar (sep : Char) : List Char → List (List Char)
  | [] => [[]]
  | c :: cs =>
    let r := splitOnChar sep cs
    if c = sep then [] :: r
    else
      match r with
      | [] => [[c]]
      | seg :: segs => (c :: seg) :: segs

/-- Parse one `key=value` segment; segments without `=` are dropped. -/
def testParsePair (cs : List Char) : Option (String × String) :=
  match cs.span fun c => c != '=' with
  | (_, []) => none
  | (key, _ :: val) => some (⟨key⟩, ⟨val⟩)

/-- A simple `cookie.parse`: split on `;`, trim leading spaces, split each
segment at its first `=`. -/
def testParseHeader (h : String) : List (String × String) :=
  ((splitOnChar ';' h.data).map fun seg => seg.dropWhile fun c => c == ' ').filterMap
    testParsePair

/-- Bundle of the concrete cookie-library primitives. -/
def testLib : CookieLib := ⟨testSerializeHeader, testParseHeader⟩

/-- Unary rendering of a byte list: `n` becomes `n` repetitions of `a`,
bytes separated by commas. -/
def bytesEnc : List Nat → List Char
  | [] => []
  | [n] => List.replicate n 'a'
  | n :: rest => List.replicate n 'a' ++ ',' :: bytesEnc rest

/-- Inverse scan of `bytesEnc`: count letters between commas. -/
def bytesDec : List Char → Nat → List Nat
  | [], acc => [acc]
  | c :: cs, acc => if c = ',' then acc :: bytesDec cs 0 else bytesDec cs (acc + 1)

/-- Concrete adapter primitives: invertible codecs over byte lists. -/
def testAdapterPrims : AdapterPrims :=
  ⟨fun bs => ⟨bytesEnc bs⟩,
   fun s => match s.data with
            | [] => []
            | cs => bytesDec cs 0,
   fun s => "dec:" ++ s,
   fun bs => ⟨'t' :: bytesEnc bs⟩,
   fun path base => base ++ path⟩

/-! ## Claims -/

/-- C5: for every cookie handle, `parse` returns `null` on an absent header,
returns `null` when the parsed header mapping lacks the handle's name, and
returns the empty string when the name maps to the raw empty string — in the
last case without invoking any decoding or signature primitive (the result
does not depend on `P`). -/
theorem c5_parse_absent_empty (P : CookiePrims) (L : CookieLib) (name : String)
    (secrets : List String) :
    (createCookieFactory P L name secrets).parse none = JsValue.null
    ∧ (∀ h, h ≠ "" → (L.parseHeader h).lookup name = none →
        (createCookieFactory P L name secrets).parse (some h) = JsValue.null)
    ∧ (∀ h, h ≠ "" → (L.parseHeader h).lookup name = some "" →
        (createCookieFactory P L name secrets).parse (some h) = JsValue.str "") := by
  refine ⟨rfl, ?_, ?_⟩ <;> intro h hne hl <;> simp [createCookieFactory, hne, hl]

/-- Evaluation of C5 on concrete headers. -/
theorem c5_parse_absent_empty_witness :
    (createCookieFactory testPrims testLib "session" ["k1"]).parse none = JsValue.null
    ∧ (createCookieFactory testPrims testLib "session" ["k1"]).parse
        (some "other=1; Path=/") = JsValue.null
    ∧ (createCookieFactory testPrims testLib "session" ["k1"]).parse
        (some "session=; Path=/") = JsValue.str "" := by
  obtain ⟨h1, h2, h3⟩ := c5_parse_absent_empty testPrims testLib "session" ["k1"]
  exact ⟨h1, h2 _ (by decide) (by decide), h3 _ (by decide) (by decide)⟩

/-- The `value === ""` test is false exactly on values other than the empty
string. -/
theorem isEmptyStr_eq_false {v : JsValue} (hv : v ≠ JsValue.str "") :
    isEmptyStr v = false := by
  cases v <;> simp_all [isEmptyStr]

/-- The `value === ""` test is true only on the empty string. -/
theorem eq_emptyStr_of_isEmptyStr {v : JsValue} (hv : isEmptyStr v = true) :
    v = JsValue.str "" := by
  cases v <;> simp_all [isEmptyStr]

/-- C6: for every value other than the empty string, `serialize` places
`encodeCookieValue` of the value in the header; the encoding is
`btoa(JSON.stringify(value))`, left unsigned when no secrets are configured,
and signed with exactly the first secret when the secrets list is non-empty
(no other secret participates in signing). -/
theorem c6_serialize_encoding (P : CookiePrims) (L : CookieLib) (name : String)
    (secrets : List String) (v : JsValue) (hv : v ≠ JsValue.str "") :
    (createCookieFactory P L name secrets).serialize v
      = L.serializeHeader name (encodeCookieValue P v secrets)
    ∧ encodeData P v = P.btoa (P.stringify v)
    ∧ (secrets = [] → encodeCookieValue P v secrets = encodeData P v)
    ∧ ∀ s0 rest, secrets = s0 :: rest →
        encodeCookieValue P v secrets = P.sign (encodeData P v) s0 := by
  refine ⟨?_, rfl, ?_, ?_⟩
  · simp [createCookieFactory, serializeValue, isEmptyStr_eq_false hv]
  · rintro rfl; rfl
  · rintro s0 rest rfl; rfl

/-- Evaluation of C6 on a concrete signed handle: the header value is the
encoding signed with the first of the two secrets. -/
theorem c6_serialize_encoding_witness :
    (createCookieFactory testPrims testLib "session" ["k1", "k2"]).serialize (JsValue.str "a")
      = testLib.serializeHeader "session"
          (testPrims.sign (testPrims.btoa (testPrims.stringify (JsValue.str "a"))) "k1") := by
  have h := c6_serialize_encoding testPrims testLib "session" ["k1", "k2"]
    (JsValue.str "a") (by simp)
  rw [h.1, h.2.2.2 "k1" ["k2"] rfl, h.2.1]

/-- Decoding inverts encoding, given the `atob`/`btoa` and
`JSON.parse`/`JSON.stringify` round-trip laws at the value in question. -/
theorem decodeData_encodeData (P : CookiePrims) (v : JsValue)
    (hjson : P.jsonParse (P.stringify v) = some v)
    (hb64 : P.atob (P.btoa (P.stringify v)) = some (P.stringify v)) :
    decodeData P (encodeData P v) = v := by
  simp [decodeData, encodeData, hb64, hjson]

/-- The unsign loop returns the decode of the first secret that verifies. -/
theorem decodeCookieLoop_first (P : CookiePrims) (raw : String) :
    ∀ pre s post u, (∀ s2 ∈ pre, P.unsign raw s2 = none) → P.unsign raw s = some u →
      decodeCookieLoop P raw (pre ++ s :: post) = decodeData P u := by
  intro pre
  induction pre with
  | nil => intro s post u _ hu; simp [decodeCookieLoop, hu]
  | cons a as ih =>
    intro s post u hpre hu
    have ha : P.unsign raw a = none := hpre a (List.mem_cons_self a as)
    have hrest : ∀ s2 ∈ as, P.unsign raw s2 = none :=
      fun s2 hs2 => hpre s2 (List.mem_cons_of_mem a hs2)
    simpa [decodeCookieLoop, ha] using ih s post u hrest hu

/-- The unsign loop returns `null` when every secret fails to verify. -/
theorem decodeCookieLoop_none (P : CookiePrims) (raw : String) :
    ∀ secrets, (∀ s ∈ secrets, P.unsign raw s = none) →
      decodeCookieLoop P raw secrets = JsValue.null := by
  intro secrets
  induction secrets with
  | nil => intro _; rfl
  | cons a as ih =>
    intro hall
    have ha : P.unsign raw a = none := hall a (List.mem_cons_self a as)
    simpa [decodeCookieLoop, ha] using ih fun s hs => hall s (List.mem_cons_of_mem a hs)

/-- C2: with a non-empty secrets list, `parse` of a present, non-empty raw
cookie value tries `unsign` against the secrets in list order and returns
the decode of the first success; when every secret fails it returns `null`
(`parse` is a total function, so no error is raised). The third conjunct is
the rotation consequence for secrets `[S2, S]`. -/
theorem c2_unsign_in_order (P : CookiePrims) (L : CookieLib) (name h raw : String)
    (secrets : List String)
    (hh : h ≠ "") (hlook : (L.parseHeader h).lookup name = some raw) (hraw : raw ≠ "")
    (hsec : secrets ≠ []) :
    (∀ pre s post u, secrets = pre ++ s :: post →
        (∀ s2 ∈ pre, P.unsign raw s2 = none) →
        P.unsign raw s = some u →
        (createCookieFactory P L name secrets).parse (some h) = decodeData P u)
    ∧ ((∀ s ∈ secrets, P.unsign raw s = none) →
        (createCookieFactory P L name secrets).parse (some h) = JsValue.null)
    ∧ (∀ S2 S u, secrets = [S2, S] → P.unsign raw S2 = none → P.unsign raw S = some u →
        (createCookieFactory P L name secrets).parse (some h) = decodeData P u) := by
  have hlen : secrets.length > 0 := List.length_pos.mpr hsec
  have hstep : (createCookieFactory P L name secrets).parse (some h)
      = decodeCookieLoop P raw secrets := by
    simp [createCookieFactory, hh, hlook, hraw, decodeCookieValue, hlen]
  refine ⟨?_, ?_, ?_⟩
  · intro pre s post u hs hpre hu
    rw [hstep, hs]
    exact decodeCookieLoop_first P raw pre s post u hpre hu
  · intro hall
    rw [hstep]
    exact decodeCookieLoop_none P raw secrets hall
  · intro S2 S u hs h2 hS
    rw [hstep, hs]
    exact decodeCookieLoop_first P raw [S2] S [] u (by simpa using h2) hS

/-- Evaluation of C2: a value signed with `k1` parses under secrets
`["k2", "k1"]` (rotation), and parses to `null` under the unrelated secret
`["k3"]`. -/
theorem c2_unsign_in_order_witness :
    (createCookieFactory testPrims testLib "session" ["k2", "k1"]).parse
        (some "session=b:s:a.k1; Path=/") = decodeData testPrims "b:s:a"
    ∧ (createCookieFactory testPrims testLib "session" ["k3"]).parse
        (some "session=b:s:a.k1; Path=/") = JsValue.null := by
  have h1 := c2_unsign_in_order testPrims testLib "session" "session=b:s:a.k1; Path=/"
    "b:s:a.k1" ["k2", "k1"] (by decide) (by decide) (by decide) (by decide)
  have h2 := c2_unsign_in_order testPrims testLib "session" "session=b:s:a.k1; Path=/"
    "b:s:a.k1" ["k3"] (by decide) (by decide) (by decide) (by decide)
  exact ⟨h1.2.2 "k2" "k1" "b:s:a" rfl (by decide) (by decide), h2.2.1 (by decide)⟩

/-- C9: with no secrets configured, `parse` of a present, non-empty raw
cookie value whose base64/JSON decoding fails returns the empty mapping
`{}` (`parse` is a total function, so no error is raised). -/
theorem c9_decode_failure_empty_obj (P : CookiePrims) (L : CookieLib) (name h raw : String)
    (hh : h ≠ "") (hlook : (L.parseHeader h).lookup name = some raw) (hraw : raw ≠ "")
    (hfail : (P.atob raw).bind P.jsonParse = none) :
    (createCookieFactory P L name []).parse (some h) = JsValue.obj [] := by
  simp [createCookieFactory, hh, hlook, hraw, decodeCookieValue, decodeData, hfail]

/-- Evaluation of C9 on a raw value that is not valid base64 output. -/
theorem c9_decode_failure_empty_obj_witness :
    (createCookieFactory testPrims testLib "session" []).parse
        (some "session=@@@; Path=/") = JsValue.obj [] :=
  c9_decode_failure_empty_obj testPrims testLib "session" "session=@@@; Path=/" "@@@"
    (by decide) (by decide) (by decide) (by rfl)

/-- C1: round trip. Assuming the spec's laws for the external primitives —
`JSON.parse`/`atob` invert `JSON.stringify`/`btoa` at the value in question,
`unsign` inverts `sign` under the same secret, and the `cookie` library's
`parse` recovers the serialized name/value pair — `parse` of the header
produced by `serialize(v)` returns `v`, for a handle with any secrets list
(empty or not); and `serialize` of the empty string places the literal empty
string in the header, bypassing encoding and signing. -/
theorem c1_roundtrip (P : CookiePrims) (L : CookieLib) (name : String)
    (secrets : List String) (v : JsValue)
    (hjson : P.jsonParse (P.stringify v) = some v)
    (hb64 : P.atob (P.btoa (P.stringify v)) = some (P.stringify v))
    (hsign : ∀ s0, secrets.head? = some s0 →
        P.unsign (P.sign (encodeData P v) s0) s0 = some (encodeData P v))
    (hne : v ≠ JsValue.str "" → encodeCookieValue P v secrets ≠ "")
    (hser : L.serializeHeader name (serializeValue P secrets v) ≠ "")
    (hlook : (L.parseHeader (L.serializeHeader name (serializeValue P secrets v))).lookup name
        = some (serializeValue P secrets v)) :
    (createCookieFactory P L name secrets).parse
        (some ((createCookieFactory P L name secrets).serialize v)) = v
    ∧ (createCookieFactory P L name secrets).serialize (JsValue.str "")
        = L.serializeHeader name "" := by
  have hstep : (createCookieFactory P L name secrets).parse
      (some (L.serializeHeader name (serializeValue P secrets v)))
      = if serializeValue P secrets v = "" then JsValue.str ""
        else decodeCookieValue P (serializeValue P secrets v) secrets := by
    simp [createCookieFactory, hser, hlook]
  constructor
  · show (createCookieFactory P L name secrets).parse
        (some (L.serializeHeader name (serializeValue P secrets v))) = v
    rcases hcase : isEmptyStr v with _ | _
    · -- v is not the empty string: the value is encoded and decoded back
      have hv : v ≠ JsValue.str "" := by
        intro hveq
        rw [hveq] at hcase
        simp [isEmptyStr] at hcase
      have hsv : serializeValue P secrets v = encodeCookieValue P v secrets := by
        simp [serializeValue, hcase]
      have hdec : decodeCookieValue P (encodeCookieValue P v secrets) secrets = v := by
        cases secrets with
        | nil =>
          simpa [decodeCookieValue, encodeCookieValue] using
            decodeData_encodeData P v hjson hb64
        | cons s0 rest =>
          have hu := hsign s0 rfl
          simp [decodeCookieValue, encodeCookieValue, decodeCookieLoop, hu,
            decodeData_encodeData P v hjson hb64]
      rw [hstep, hsv, if_neg (hne hv), hdec]
    · -- v is the empty string: the raw empty value short-circuits
      have hveq : v = JsValue.str "" := eq_emptyStr_of_isEmptyStr hcase
      have hsv : serializeValue P secrets v = "" := by simp [serializeValue, hcase]
      rw [hstep, hsv, if_pos rfl, hveq]
  · show L.serializeHeader name (serializeValue P secrets (JsValue.str ""))
        = L.serializeHeader name ""
    simp [serializeValue, isEmptyStr]

/-- Evaluation of C1 with one secret on the value `"a"`. -/
theorem c1_roundtrip_witness :
    (createCookieFactory testPrims testLib "session" ["k1"]).parse
        (some ((createCookieFactory testPrims testLib "session" ["k1"]).serialize
          (JsValue.str "a")))
      = JsValue.str "a"
    ∧ (createCookieFactory testPrims testLib "session" ["k1"]).serialize (JsValue.str "")
      = testLib.serializeHeader "session" "" :=
  c1_roundtrip testPrims testLib "session" ["k1"] (JsValue.str "a")
    (by rfl) (by decide)
    (fun s0 hs0 => by
      obtain rfl : "k1" = s0 := Option.some.inj hs0
      decide)
    (fun _ => by decide) (by decide) (by decide)

/-- C10: when the event's `cookies` field is present as an empty array, the
guard (which tests presence of the array, not non-emptiness) still appends a
`Cookie` header, so the constructed request's headers are those of the
cookie-less event followed by a `Cookie` header whose value is the empty
string. -/
theorem c10_empty_cookie_header (P : AdapterPrims) (event : APIGatewayProxyEventV2)
    (hc : event.cookies = some []) :
    (createRemixRequest P event).headers
      = createRemixHeaders event.headers none ++ [("Cookie", "")] := by
  simp [createRemixRequest, createRemixHeaders, hc]
  rfl

/-- Evaluation of C10 on an event with `cookies: []`. -/
theorem c10_empty_cookie_header_witness :
    (createRemixRequest testAdapterPrims
        ⟨"/foo", "a=1", [("host", some "x.test")], some [], none, false, "GET"⟩).headers
      = createRemixHeaders [("host", some "x.test")] none ++ [("Cookie", "")] :=
  c10_empty_cookie_header testAdapterPrims _ rfl

/-- C7: for an event with a non-empty body and `isBase64Encoded = true`, the
request body is the base64 decoding of the event body as text; for every
other event (flag unset, empty body, or no body) the event body is passed
through verbatim. -/
theorem c7_body_decoding (P : AdapterPrims) (event : APIGatewayProxyEventV2) :
    (∀ b, event.body = some b → b ≠ "" → event.isBase64Encoded = true →
        (createRemixRequest P event).body = some (P.b64decodeToString b))
    ∧ (event.isBase64Encoded = false → (createRemixRequest P event).body = event.body)
    ∧ (event.body = some "" → (createRemixRequest P event).body = event.body)
    ∧ (event.body = none → (createRemixRequest P event).body = event.body) := by
  refine ⟨?_, ?_, ?_, ?_⟩
  · intro b hb hne h64
    simp [createRemixRequest, hb, h64, hne]
  · intro h64
    cases hb : event.body <;> simp [createRemixRequest, hb, h64]
  · intro hb
    cases h64 : event.isBase64Encoded <;> simp [createRemixRequest, hb, h64]
  · intro hb
    cases h64 : event.isBase64Encoded <;> simp [createRemixRequest, hb, h64]

/-- Evaluation of C7: a base64 event body is decoded, a non-base64 one is
passed through. -/
theorem c7_body_decoding_witness :
    (createRemixRequest testAdapterPrims
        ⟨"/foo", "", [("host", some "x.test")], none, some "Zm9v", true, "POST"⟩).body
      = some (testAdapterPrims.b64decodeToString "Zm9v")
    ∧ (createRemixRequest testAdapterPrims
        ⟨"/foo", "", [("host", some "x.test")], none, some "plain", false, "POST"⟩).body
      = some "plain" := by
  have h1 := c7_body_decoding testAdapterPrims
    ⟨"/foo", "", [("host", some "x.test")], none, some "Zm9v", true, "POST"⟩
  have h2 := c7_body_decoding testAdapterPrims
    ⟨"/foo", "", [("host", some "x.test")], none, some "plain", false, "POST"⟩
  exact ⟨h1.1 "Zm9v" rfl (by decide) rfl, h2.2.1 rfl⟩

/-- C8: the request URL is `rawPath` plus `"?" + rawQueryString` (the query
part only when the raw query string is non-empty) resolved against
`https://{host}`, where the host is the `x-forwarded-host` header when it is
present and non-empty and the `host` header otherwise; on the event
`{rawPath: "/foo", rawQueryString: "a=1", headers: {host: "x.test"},
method: "GET"}` the URL is `https://x.test/foo?a=1`. -/
theorem c8_url_construction (P : AdapterPrims) (event : APIGatewayProxyEventV2)
    (hurl : P.urlResolve "/foo?a=1" "https://x.test" = "https://x.test/foo?a=1") :
    (createRemixRequest P event).url
      = P.urlResolve
          (event.rawPath
            ++ if event.rawQueryString.length ≠ 0 then "?" ++ event.rawQueryString else "")
          ("https://" ++ eventHost event.headers)
    ∧ (∀ hfh, getEventHeader event.headers "x-forwarded-host" = some hfh → hfh ≠ "" →
        eventHost event.headers = hfh)
    ∧ (jsTruthy (getEventHeader event.headers "x-forwarded-host") = false →
        ∀ hh, getEventHeader event.headers "host" = some hh → eventHost event.headers = hh)
    ∧ (createRemixRequest P
        ⟨"/foo", "a=1", [("host", some "x.test")], none, none, false, "GET"⟩).url
        = "https://x.test/foo?a=1" := by
  refine ⟨rfl, ?_, ?_, ?_⟩
  · intro hfh hlook hne
    simp [eventHost, jsOr, jsTruthy, jsTemplateStr, hlook, hne]
  · intro hfalse hh hlook
    simp [eventHost, jsOr, jsTemplateStr, hfalse, hlook]
  · have hstep : (createRemixRequest P
        ⟨"/foo", "a=1", [("host", some "x.test")], none, none, false, "GET"⟩).url
        = P.urlResolve "/foo?a=1" "https://x.test" := rfl
    rw [hstep, hurl]

/-- Evaluation of C8: the concrete example URL, and forwarded-host
preference. -/
theorem c8_url_construction_witness :
    (createRemixRequest testAdapterPrims
        ⟨"/foo", "a=1", [("host", some "x.test")], none, none, false, "GET"⟩).url
      = "https://x.test/foo?a=1"
    ∧ eventHost [("x-forwarded-host", some "fwd.test"), ("host", some "x.test")]
      = "fwd.test" := by
  have h := c8_url_construction testAdapterPrims
    ⟨"/foo", "a=1",
      [("x-forwarded-host", some "fwd.test"), ("host", some "x.test")],
      none, none, false, "GET"⟩
    (by decide)
  exact ⟨h.2.2.2, h.2.1 "fwd.test" (by decide) (by decide)⟩

/-- The cookies collected by the extraction loop number exactly the
`Set-Cookie` values of the header view. -/
theorem collectCookies_length (raw : List (String × List String)) :
    (collectCookies raw).length = setCookieCount raw := by
  induction raw with
  | nil => rfl
  | cons kv rest ih =>
    obtain ⟨key, values⟩ := kv
    by_cases hk : strToLower key = "set-cookie"
    · simp [collectCookies, setCookieCount, List.filter_cons, hk, ih]
    · simp [collectCookies, setCookieCount, List.filter_cons, hk, ih]

/-- When the extraction loop finds nothing and every entry carries at least
one value, no entry's name lowercases to `set-cookie`. -/
theorem collectCookies_nil_no_set_cookie (raw : List (String × List String))
    (hwf : ∀ kv ∈ raw, kv.2 ≠ []) (hnil : collectCookies raw = []) :
    ∀ kv ∈ raw, strToLower kv.1 ≠ "set-cookie" := by
  induction raw with
  | nil => intro kv h; cases h
  | cons a rest ih =>
    obtain ⟨key, values⟩ := a
    by_cases hk : strToLower key = "set-cookie"
    · rw [collectCookies, if_pos hk] at hnil
      have hv : values = [] := (List.append_eq_nil.mp hnil).1
      exact absurd hv (hwf (key, values) (List.mem_cons_self _ _))
    · rw [collectCookies, if_neg hk] at hnil
      intro kv hkv
      rcases List.mem_cons.mp hkv with h | h
      · rw [h]; exact hk
      · exact ih (fun x hx => hwf x (List.mem_cons_of_mem _ hx)) hnil kv h

/-- Entries surviving `Headers.delete(name)` do not match the deleted
name. -/
theorem headersDelete_no_key (name : String) (raw : List (String × List String)) :
    ∀ kv ∈ headersDelete name raw, strToLower kv.1 ≠ strToLower name := by
  intro kv hkv heq
  have h2 := (List.mem_filter.mp hkv).2
  rw [heq] at h2
  simp at h2

/-- `Headers.set` preserves any property of the entry names that the set
name itself satisfies. -/
theorem headersSet_key_pred (name value : String) (raw : List (String × List String))
    (p : String → Prop) (hraw : ∀ kv ∈ raw, p kv.1) (hname : p name) :
    ∀ kv ∈ headersSet name value raw, p kv.1 := by
  intro kv hkv
  unfold headersSet at hkv
  split at hkv
  · obtain ⟨x, hx, rfl⟩ := List.mem_map.mp hkv
    split
    · exact hraw x hx
    · exact hraw x hx
  · rcases List.mem_append.mp hkv with h | h
    · exact hraw kv h
    · rw [List.mem_singleton.mp h]
      exact hname

/-- C3: for every response and abort state, the gateway result's `cookies`
array is exactly the list of `Set-Cookie` values of the response headers
(matched case-insensitively), its length is their number, and no
`Set-Cookie` header survives into the result's flattened header mapping.
The hypothesis states the fetch `Headers.raw()` well-formedness fact that
every entry carries at least one value. -/
theorem c3_set_cookie_extraction (P : AdapterPrims) (resp : NodeResponse) (aborted : Bool)
    (hwf : ∀ kv ∈ resp.headersRaw, kv.2 ≠ []) :
    (sendRemixResponse P resp aborted).cookies = collectCookies resp.headersRaw
    ∧ (sendRemixResponse P resp aborted).cookies.length = setCookieCount resp.headersRaw
    ∧ ∀ kv ∈ (sendRemixResponse P resp aborted).headers, kv.1 ≠ "set-cookie" := by
  refine ⟨rfl, collectCookies_length resp.headersRaw, ?_⟩
  have hlow : strToLower "Set-Cookie" = "set-cookie" := by decide
  have hraw1 : ∀ kv ∈ (if (collectCookies resp.headersRaw).length > 0 then
      headersDelete "Set-Cookie" resp.headersRaw else resp.headersRaw),
      strToLower kv.1 ≠ "set-cookie" := by
    split
    · intro kv hkv
      have := headersDelete_no_key "Set-Cookie" resp.headersRaw kv hkv
      rwa [hlow] at this
    · rename_i hlen
      have hnil : collectCookies resp.headersRaw = [] := by
        cases hc : collectCookies resp.headersRaw with
        | nil => rfl
        | cons a l => rw [hc] at hlen; simp at hlen
      exact collectCookies_nil_no_set_cookie resp.headersRaw hwf hnil
  have hraw2 : ∀ kv ∈ (if aborted then
      headersSet "Connection" "close"
        (if (collectCookies resp.headersRaw).length > 0 then
          headersDelete "Set-Cookie" resp.headersRaw else resp.headersRaw)
      else (if (collectCookies resp.headersRaw).length > 0 then
          headersDelete "Set-Cookie" resp.headersRaw else resp.headersRaw)),
      strToLower kv.1 ≠ "set-cookie" := by
    cases aborted with
    | false => simpa using hraw1
    | true =>
      simp only [if_pos]
      exact headersSet_key_pred "Connection" "close" _
        (fun s => strToLower s ≠ "set-cookie") hraw1 (by decide)
  intro kv hkv
  have hkv2 : kv ∈ headersToEntries (if aborted then
      headersSet "Connection" "close"
        (if (collectCookies resp.headersRaw).length > 0 then
          headersDelete "Set-Cookie" resp.headersRaw else resp.headersRaw)
      else (if (collectCookies resp.headersRaw).length > 0 then
          headersDelete "Set-Cookie" resp.headersRaw else resp.headersRaw)) := hkv
  obtain ⟨x, hx, rfl⟩ := List.mem_map.mp hkv2
  exact hraw2 x hx

/-- Evaluation of C3 on a response carrying two `Set-Cookie` values under
differently-cased names. -/
theorem c3_set_cookie_extraction_witness :
    (sendRemixResponse testAdapterPrims
        ⟨200, [("Content-Type", ["text/html"]), ("Set-Cookie", ["a=1"]),
               ("set-cookie", ["b=2"])], [1, 2]⟩ false).cookies
      = ["a=1", "b=2"]
    ∧ (sendRemixResponse testAdapterPrims
        ⟨200, [("Content-Type", ["text/html"]), ("Set-Cookie", ["a=1"]),
               ("set-cookie", ["b=2"])], [1, 2]⟩ false).headers
      = [("content-type", "text/html")] := by
  have h := c3_set_cookie_extraction testAdapterPrims
    ⟨200, [("Content-Type", ["text/html"]), ("Set-Cookie", ["a=1"]),
           ("set-cookie", ["b=2"])], [1, 2]⟩ false
    (by decide)
  refine ⟨h.1.trans (by decide), by decide⟩

/-- `find?` is unchanged by a `filter` that keeps everything the predicate
can find. -/
theorem find_filter_stable (p q : (String × List String) → Bool)
    (raw : List (String × List String)) (himp : ∀ kv, p kv = true → q kv = true) :
    (raw.filter q).find? p = raw.find? p := by
  induction raw with
  | nil => rfl
  | cons kv rest ih =>
    by_cases hp : p kv = true
    · rw [List.filter_cons_of_pos (himp kv hp), List.find?_cons_of_pos _ hp,
        List.find?_cons_of_pos _ hp]
    · have hp' : ¬ p kv := hp
      by_cases hq : q kv = true
      · rw [List.filter_cons_of_pos hq, List.find?_cons_of_neg _ hp',
          List.find?_cons_of_neg _ hp', ih]
      · rw [List.filter_cons_of_neg (by simpa using hq), List.find?_cons_of_neg _ hp', ih]

/-- `Headers.get` of one name is unchanged by `Headers.delete` of a
different name. -/
theorem headersGet_delete (n m : String) (raw : List (String × List String))
    (hne : strToLower n ≠ strToLower m) :
    headersGet n (headersDelete m raw) = headersGet n raw := by
  unfold headersGet headersDelete
  rw [find_filter_stable]
  intro kv hp
  have hk : strToLower kv.1 = strToLower n := by simpa using hp
  simp [hk]
  exact fun h => hne h

/-- `find?` skips an entry the predicate rejects. -/
theorem find_cons_false (p : (String × List String) → Bool) (a : String × List String)
    (l : List (String × List String)) (ha : p a = false) :
    (a :: l).find? p = l.find? p := by
  simp [List.find?, ha]

/-- `find?` stops at an entry the predicate accepts. -/
theorem find_cons_true (p : (String × List String) → Bool) (a : String × List String)
    (l : List (String × List String)) (ha : p a = true) :
    (a :: l).find? p = some a := by
  simp [List.find?, ha]

/-- `find?` by one name is unchanged by the in-place value replacement that
`Headers.set` performs under a different name. -/
theorem find_set_map_stable (n m v : String) (raw : List (String × List String))
    (hne : strToLower n ≠ strToLower m) :
    ((raw.map fun kv => if strToLower kv.1 == strToLower m then (kv.1, [v]) else kv).find?
        fun kv => strToLower kv.1 == strToLower n)
      = raw.find? fun kv => strToLower kv.1 == strToLower n := by
  induction raw with
  | nil => rfl
  | cons kv rest ih =>
    by_cases hm : strToLower kv.1 = strToLower m
    · have hmb : (strToLower kv.1 == strToLower m) = true := by simpa using hm
      have hpn : (strToLower kv.1 == strToLower n) = false := by
        rw [hm, beq_eq_false_iff_ne]
        exact fun h => hne h.symm
      rw [List.map_cons, if_pos hmb, find_cons_false _ (kv.1, [v]) _ hpn,
        find_cons_false _ kv _ hpn, ih]
    · have hmb : (strToLower kv.1 == strToLower m) = false := by
        rwa [beq_eq_false_iff_ne]
      rw [List.map_cons, if_neg (by simp [hmb])]
      by_cases hn : strToLower kv.1 = strToLower n
      · have hnb : (strToLower kv.1 == strToLower n) = true := by simpa using hn
        rw [find_cons_true _ kv _ hnb, find_cons_true _ kv _ hnb]
      · have hnb : (strToLower kv.1 == strToLower n) = false := by
          rwa [beq_eq_false_iff_ne]
        rw [find_cons_false _ kv _ hnb, find_cons_false _ kv _ hnb, ih]

/-- Appending an entry the predicate rejects does not change `find?`. -/
theorem find_append_single_none (p : (String × List String) → Bool)
    (x : String × List String) (raw : List (String × List String)) (hx : p x = false) :
    (raw ++ [x]).find? p = raw.find? p := by
  induction raw with
  | nil => simp [List.find?, hx]
  | cons kv rest ih =>
    cases hp : p kv <;> simp [List.find?, hp, ih]

/-- `Headers.get` of one name is unchanged by `Headers.set` of a different
name. -/
theorem headersGet_set (n m v : String) (raw : List (String × List String))
    (hne : strToLower n ≠ strToLower m) :
    headersGet n (headersSet m v raw) = headersGet n raw := by
  by_cases hany : (raw.any fun kv => strToLower kv.1 == strToLower m) = true
  · rw [show headersSet m v raw
        = raw.map fun kv => if strToLower kv.1 == strToLower m then (kv.1, [v]) else kv
      from by simp [headersSet, hany]]
    unfold headersGet
    rw [find_set_map_stable n m v raw hne]
  · rw [show headersSet m v raw = raw ++ [(m, [v])] from by simp [headersSet, hany]]
    unfold headersGet
    rw [find_append_single_none _ _ _ (by
      rw [beq_eq_false_iff_ne]
      exact fun h => hne h.symm)]

/-- The content type `sendRemixResponse` inspects is the response's own
`Content-Type` header: deleting `Set-Cookie` and setting `Connection` do not
disturb it. -/
theorem sendRemixResponse_contentType (resp : NodeResponse) (aborted : Bool) :
    headersGet "Content-Type"
      (if aborted then
        headersSet "Connection" "close"
          (if (collectCookies resp.headersRaw).length > 0 then
            headersDelete "Set-Cookie" resp.headersRaw else resp.headersRaw)
      else (if (collectCookies resp.headersRaw).length > 0 then
            headersDelete "Set-Cookie" resp.headersRaw else resp.headersRaw))
      = headersGet "Content-Type" resp.headersRaw := by
  have h1 : headersGet "Content-Type"
      (if (collectCookies resp.headersRaw).length > 0 then
        headersDelete "Set-Cookie" resp.headersRaw else resp.headersRaw)
      = headersGet "Content-Type" resp.headersRaw := by
    split
    · exact headersGet_delete "Content-Type" "Set-Cookie" resp.headersRaw (by decide)
    · rfl
  cases aborted with
  | false => simpa using h1
  | true =>
    simp only [if_pos]
    rw [headersGet_set "Content-Type" "Connection" "close" _ (by decide), h1]

/-- C4: when the response's `Content-Type` is in the binary allow-list the
result has `isBase64Encoded = true` and a body whose base64 decoding is the
response's raw bytes (assuming the `Buffer` base64 round-trip law at those
bytes); for any other content type, or none, the result has
`isBase64Encoded = false` and a body equal to the response's decoded
text. -/
theorem c4_binary_body_encoding (P : AdapterPrims) (resp : NodeResponse) (aborted : Bool)
    (hb64 : P.b64decodeBytes (P.b64encodeBytes resp.bodyBytes) = resp.bodyBytes) :
    (∀ c, headersGet "Content-Type" resp.headersRaw = some c → c ∈ binaryTypes →
        (sendRemixResponse P resp aborted).isBase64Encoded = true
        ∧ P.b64decodeBytes (sendRemixResponse P resp aborted).body = resp.bodyBytes)
    ∧ ((∀ c, headersGet "Content-Type" resp.headersRaw = some c → c ∉ binaryTypes) →
        (sendRemixResponse P resp aborted).isBase64Encoded = false
        ∧ (sendRemixResponse P resp aborted).body = P.textDecode resp.bodyBytes) := by
  have hct := sendRemixResponse_contentType resp aborted
  constructor
  · intro c hc hmem
    have hbin : isBinaryType (headersGet "Content-Type"
        (if aborted then
          headersSet "Connection" "close"
            (if (collectCookies resp.headersRaw).length > 0 then
              headersDelete "Set-Cookie" resp.headersRaw else resp.headersRaw)
        else (if (collectCookies resp.headersRaw).length > 0 then
              headersDelete "Set-Cookie" resp.headersRaw else resp.headersRaw))) = true := by
      rw [hct, hc]
      simpa [isBinaryType] using hmem
    constructor
    · show isBinaryType _ = true
      exact hbin
    · show P.b64decodeBytes (if isBinaryType _ = true then _ else _) = _
      rw [hbin, if_pos rfl, hb64]
  · intro hnone
    have hbin : isBinaryType (headersGet "Content-Type"
        (if aborted then
          headersSet "Connection" "close"
            (if (collectCookies resp.headersRaw).length > 0 then
              headersDelete "Set-Cookie" resp.headersRaw else resp.headersRaw)
        else (if (collectCookies resp.headersRaw).length > 0 then
              headersDelete "Set-Cookie" resp.headersRaw else resp.headersRaw))) = false := by
      rw [hct]
      cases hc : headersGet "Content-Type" resp.headersRaw with
      | none => rfl
      | some c => simpa [isBinaryType] using hnone c hc
    constructor
    · show isBinaryType _ = false
      exact hbin
    · show (if isBinaryType _ = true then _ else _) = _
      rw [hbin]
      simp

/-- Evaluation of C4 on a PDF response and an HTML response. -/
theorem c4_binary_body_encoding_witness :
    ((sendRemixResponse testAdapterPrims
        ⟨200, [("Content-Type", ["application/pdf"])], [2, 1]⟩ false).isBase64Encoded = true
      ∧ testAdapterPrims.b64decodeBytes
          (sendRemixResponse testAdapterPrims
            ⟨200, [("Content-Type", ["application/pdf"])], [2, 1]⟩ false).body = [2, 1])
    ∧ ((sendRemixResponse testAdapterPrims
        ⟨200, [("Content-Type", ["text/html"])], [2, 1]⟩ false).isBase64Encoded = false
      ∧ (sendRemixResponse testAdapterPrims
            ⟨200, [("Content-Type", ["text/html"])], [2, 1]⟩ false).body
          = testAdapterPrims.textDecode [2, 1]) := by
  have h1 := c4_binary_body_encoding testAdapterPrims
    ⟨200, [("Content-Type", ["application/pdf"])], [2, 1]⟩ false (by decide)
  have h2 := c4_binary_body_encoding testAdapterPrims
    ⟨200, [("Content-Type", ["text/html"])], [2, 1]⟩ false (by decide)
  exact ⟨h1.1 "application/pdf" (by decide) (by decide),
         h2.2 fun c hc => by
           have : c = "text/html" := by
             have := hc
             rw [show headersGet "Content-Type"
                 [("Content-Type", ["text/html"])] = some "text/html" from by decide] at this
             exact (Option.some.inj this).symm
           rw [this]
           decide⟩
